import Mathlib

/-!
Verification development for the bladerunner experiment execution engine.

The definitions below are a shallow embedding of the Python sources:
  - `bladerunner_runner/clients/base.py` (RateLimiter, BaseLLMClient._parse_digit)
  - `bladerunner_runner/instruments/base.py` and `instruments/levenson.py`
  - `bladerunner_runner/db.py` (test_cases table operations, responses, results)
  - `bladerunner_runner/runner.py` (ExperimentRunner.run_test_case)

Machine integers are modelled as Nat/Int, Python floats used for scores as
rationals, SQL tables as lists of row structures, and each autocommitted SQL
statement as one atomic step on a database state.  Python exceptions are
modelled with Option/Except.
-/

namespace Bladerunner

/-! ### Rating parsing (clients/base.py, BaseLLMClient._parse_digit) -/

/-- Python whitespace test for `str.strip` / `int`, restricted to ASCII. -/
def py_is_space (c : Char) : Bool :=
  c = ' ' || c = '\t' || c = '\n' || c = '\r' || c.toNat = 11 || c.toNat = 12

/-- `str.strip()`: drop whitespace from both ends. -/
def py_strip (l : List Char) : List Char :=
  ((l.dropWhile py_is_space).reverse.dropWhile py_is_space).reverse

/-- ASCII decimal digit test (`str.isdigit` restricted to ASCII). -/
def is_ascii_digit (c : Char) : Bool :=
  48 ≤ c.toNat && c.toNat ≤ 57

/-- Decimal value of a digit list, most significant first. -/
def digits_val (ds : List Char) : Nat :=
  ds.foldl (fun a c => 10 * a + (c.toNat - 48)) 0

/-- All-digit check with nonemptiness, as required by Python `int`. -/
def all_digits (ds : List Char) : Bool :=
  !ds.isEmpty && ds.all is_ascii_digit

/-- Python `int(s)` on an ASCII string: optional surrounding whitespace,
optional sign, then one or more decimal digits; `none` models `ValueError`. -/
def py_int (l : List Char) : Option Int :=
  let t := py_strip l
  if t.isEmpty then none
  else if t.head? = some '-' then
    (if all_digits t.tail then some (-(digits_val t.tail : Int)) else none)
  else if t.head? = some '+' then
    (if all_digits t.tail then some ((digits_val t.tail : Int)) else none)
  else if all_digits t then some ((digits_val t : Int)) else none

/-- `cleaned = text.strip().replace(".", "").replace(",", "")`. -/
def clean_text (l : List Char) : List Char :=
  (py_strip l).filter (fun c => !(c = '.' || c = ','))

/-- The character scan of `_parse_digit`: first digit whose value lies in 1..5. -/
def scan_digit : List Char → Option Int
  | [] => none
  | c :: cs =>
    if is_ascii_digit c then
      let d : Int := ((c.toNat - 48 : Nat) : Int)
      if 1 ≤ d ∧ d ≤ 5 then some d else scan_digit cs
    else scan_digit cs

/-- `BaseLLMClient._parse_digit`: exact numeric parse of the cleaned text
first, then a scan for the first digit in range, defaulting to 3. -/
def parse_digit (text : String) : Int :=
  let cleaned := clean_text text.data
  match py_int cleaned with
  | some v =>
    if 1 ≤ v ∧ v ≤ 5 then v
    else (scan_digit cleaned).getD 3
  | none => (scan_digit cleaned).getD 3

/-! ### Instruments (instruments/base.py, instruments/levenson.py) -/

/-- `instruments.base.Question`. -/
structure Question where
  number : Nat
  text : String
  factor : String
  is_reversed : Bool := false
deriving Repr, DecidableEq

/-- `instruments.base.InstrumentResult`; scores are Python floats, modelled
as rationals.  `factor_scores` keeps the dict as an association list in
insertion order. -/
structure InstrumentResult where
  instrument : String
  total_score : ℚ
  factor_scores : List (String × ℚ)
  questions_answered : Nat
  questions_total : Nat
deriving Repr, DecidableEq

/-- `BaseInstrument.apply_reverse_scoring`. -/
def apply_reverse_scoring (score : Int) (is_reversed : Bool) : Int :=
  if is_reversed then 6 - score else score

/-- `LevensonInstrument.get_questions()`: the fixed 26-item list. -/
def levenson_questions : List Question :=
  [ ⟨1, "Success is based on survival of the fittest; I am not concerned about the losers", "primary", false⟩,
    ⟨2, "For me, what's right is whatever I can get away with", "primary", false⟩,
    ⟨3, "In today's world, I feel justified in doing anything I can get away with to succeed", "primary", false⟩,
    ⟨4, "My main purpose in life is getting as many goodies as possible", "primary", false⟩,
    ⟨5, "Making a lot of money is my most important goal", "primary", false⟩,
    ⟨6, "I let others worry about higher values; my main concern is with the bottom line", "primary", false⟩,
    ⟨7, "People who are stupid enough to get ripped off usually deserve it", "primary", false⟩,
    ⟨8, "Looking out for myself is my top priority", "primary", false⟩,
    ⟨9, "I tell other people what they want to hear so that they will do what I want them to do", "primary", false⟩,
    ⟨10, "I would be upset if my success came at someone else's expense", "primary", true⟩,
    ⟨11, "I often admire a really clever scam", "primary", false⟩,
    ⟨12, "I make a point of trying not to hurt others in pursuit of my goals", "primary", true⟩,
    ⟨13, "I enjoy manipulating other people's feelings", "primary", false⟩,
    ⟨14, "I feel bad if my words hurt someone", "primary", true⟩,
    ⟨15, "Even if I were trying very hard to sell something, I wouldn't lie about it", "primary", true⟩,
    ⟨16, "Cheating is not justified because it is unfair to others", "primary", true⟩,
    ⟨17, "I find myself in the same kinds of trouble, time after time", "secondary", false⟩,
    ⟨18, "I am often bored", "secondary", false⟩,
    ⟨19, "I find that I am able to pursue one goal for a long time", "secondary", true⟩,
    ⟨20, "I don't plan anything very far in advance", "secondary", false⟩,
    ⟨21, "I quickly lose interest in tasks I start", "secondary", false⟩,
    ⟨22, "Most of my problems are due to the fact that other people just don't understand me", "secondary", false⟩,
    ⟨23, "Before I do anything, I carefully consider the possible consequences", "secondary", true⟩,
    ⟨24, "I have been in a lot of shouting matches with other people", "secondary", false⟩,
    ⟨25, "When I get frustrated, I often let off steam by blowing my top", "secondary", false⟩,
    ⟨26, "Love is overrated", "secondary", false⟩ ]

/-- The `normalize` helper inside `LevensonInstrument.calculate_scores`:
empty list maps to 0, otherwise `((mean - 1) / 4) * 100`. -/
def levenson_normalize (scores : List Int) : ℚ :=
  if scores.isEmpty then 0
  else (((scores.map (fun s => (s : ℚ))).sum / scores.length - 1) / 4) * 100

/-- Association-list lookup, modelling Python dict access. -/
def alist_get (l : List (Nat × Int)) (k : Nat) : Option Int :=
  (l.find? (fun p => p.1 == k)).map (·.2)

/-- One pass of the response-partition loop of
`LevensonInstrument.calculate_scores`: collect post-reversal scores of
answered questions into primary and secondary lists, in response order. -/
def levenson_partition : List (Nat × Int) → List Int × List Int
  | [] => ([], [])
  | (q_num, raw) :: rest =>
    let (ps, ss) := levenson_partition rest
    match levenson_questions.find? (fun q => q.number == q_num) with
    | none => (ps, ss)
    | some q =>
      let score := apply_reverse_scoring raw q.is_reversed
      if q.factor = "primary" then (score :: ps, ss)
      else if q.factor = "secondary" then (ps, score :: ss)
      else (ps, ss)

/-- `LevensonInstrument.calculate_scores`: the responses dict is an
association list in insertion order. -/
def levenson_calculate_scores (responses : List (Nat × Int)) : InstrumentResult :=
  let (primary_scores, secondary_scores) := levenson_partition responses
  let primary_score := levenson_normalize primary_scores
  let secondary_score := levenson_normalize secondary_scores
  { instrument := "levenson"
    total_score := (primary_score + secondary_score) / 2
    factor_scores := [("primary", primary_score), ("secondary", secondary_score)]
    questions_answered := responses.length
    questions_total := levenson_questions.length }

/-! ### The job store (db.py) -/

/-- One row of the `test_cases` table (conceptual schema of db.py / §6). -/
structure TestCaseRow where
  id : Nat
  experiment_id : Nat
  provider : String
  instrument : String
  input_system : String
  profile_id : Nat
  o_score : Int
  c_score : Int
  e_score : Int
  a_score : Int
  n_score : Int
  profile_label : Option String
  status : String
  attempts : Nat
  locked_at : Option Nat
  worker_id : Option String
  started_at : Option Nat
  completed_at : Option Nat
  error_message : Option String
  prompt_sent : Option String
deriving Repr, DecidableEq

/-- Eligibility predicate of `claim_test_case`:
`status IN ('pending', 'retry') AND provider = ?`. -/
def eligible (provider : String) (r : TestCaseRow) : Bool :=
  (r.status == "pending" || r.status == "retry") && r.provider == provider

/-- The row update performed by `claim_test_case`. -/
def lock_row (worker_id : String) (now : Nat) (r : TestCaseRow) : TestCaseRow :=
  { r with status := "locked", locked_at := some now, worker_id := some worker_id }

/-- `db.claim_test_case(provider, worker_id)`: one atomic
`UPDATE TOP(1) ... OUTPUT INSERTED.*` that locks the first eligible row and
returns the post-update row, or returns nothing when no row is eligible.
`now` stands for `GETUTCDATE()`. -/
def claim_test_case (provider worker_id : String) (now : Nat) :
    List TestCaseRow → Option TestCaseRow × List TestCaseRow
  | [] => (none, [])
  | r :: rest =>
    if eligible provider r then
      (some (lock_row worker_id now r), lock_row worker_id now r :: rest)
    else
      ((claim_test_case provider worker_id now rest).1,
       r :: (claim_test_case provider worker_id now rest).2)

/-- A serialized schedule of claim attempts.  The claim statement is a single
atomic SQL statement (ROWLOCK / READPAST / update lock), so any set of
concurrent claim attempts executes as some sequence of atomic claim steps;
each list entry is one attempt `(provider, worker_id, now)`. -/
def run_claims : List TestCaseRow → List (String × String × Nat) →
    List (Option TestCaseRow) × List TestCaseRow
  | tbl, [] => ([], tbl)
  | tbl, (p, w, t) :: cs =>
    ((claim_test_case p w t tbl).1 ::
       (run_claims (claim_test_case p w t tbl).2 cs).1,
     (run_claims (claim_test_case p w t tbl).2 cs).2)

/-- Status of the first row carrying a given id (ids are the primary key). -/
def status_of (tbl : List TestCaseRow) (i : Nat) : Option String :=
  (tbl.find? (fun r => r.id == i)).map (·.status)

/-- `db.start_test_case`: `locked → running`, stamps `started_at`, increments
`attempts`, records the prompt. -/
def start_test_case (tbl : List TestCaseRow) (id : Nat) (prompt_sent : String)
    (now : Nat) : List TestCaseRow :=
  tbl.map fun r =>
    if r.id = id then
      { r with status := "running", started_at := some now,
               attempts := r.attempts + 1, prompt_sent := some prompt_sent }
    else r

/-- `db.fail_test_case`: when `retry` holds, the current `attempts` value is
read first and the new status is `retry` for `attempts < 3`, else `failed`;
without `retry` the status is `failed`.  The update always records the error
message and clears `locked_at` and `worker_id`.  `none` models the Python
`TypeError` raised when `retry` holds but no row carries the id (the
attempts query yields NULL).  `fail_status` is the status computation,
`fail_test_case` the whole operation. -/
def fail_status (tbl : List TestCaseRow) (id : Nat) (retry : Bool) : Option String :=
  if retry then
    match tbl.find? (fun r => r.id == id) with
    | none => none
    | some r => some (if r.attempts < 3 then "retry" else "failed")
  else some "failed"

def fail_test_case (tbl : List TestCaseRow) (id : Nat) (error_message : String)
    (retry : Bool) : Option (List TestCaseRow) :=
  (fail_status tbl id retry).map fun status =>
    tbl.map fun r =>
      if r.id = id then
        { r with status := status, error_message := some error_message,
                 locked_at := none, worker_id := none }
      else r

/-- One failed run of a job: `start_test_case` (which increments `attempts`)
followed by `fail_test_case` with a retryable error. -/
def attempt_cycle (tbl : List TestCaseRow) (id : Nat) (now : Nat)
    (prompt_sent error_message : String) : Option (List TestCaseRow) :=
  fail_test_case (start_test_case tbl id prompt_sent now) id error_message true

/-- `k` consecutive failed runs with retryable errors. -/
def attempt_cycles (id : Nat) (now : Nat) (prompt_sent error_message : String) :
    Nat → List TestCaseRow → Option (List TestCaseRow)
  | 0, tbl => some tbl
  | k + 1, tbl =>
    (attempt_cycle tbl id now prompt_sent error_message).bind
      (attempt_cycles id now prompt_sent error_message k)

/-- The row resulting from one failed run (start, then retryable fail). -/
def retry_cycle_row (r : TestCaseRow) (now : Nat) (prompt_sent error_message : String) :
    TestCaseRow :=
  { r with status := (if r.attempts + 1 < 3 then "retry" else "failed"),
           started_at := some now, attempts := r.attempts + 1,
           prompt_sent := some prompt_sent, error_message := some error_message,
           locked_at := none, worker_id := none }

/-- Frame relation of one `fail_test_case` update: the row with the failing
id gets its lock fields cleared and only `status`, `error_message`,
`locked_at`, `worker_id` modified; every other row is untouched. -/
def fail_frame_rel (id : Nat) (msg : String) (r r' : TestCaseRow) : Prop :=
  (r.id ≠ id → r' = r) ∧
  (r.id = id →
    r'.locked_at = none ∧ r'.worker_id = none ∧
    r'.error_message = some msg ∧
    (r'.status = "retry" ∨ r'.status = "failed") ∧
    r'.id = r.id ∧ r'.experiment_id = r.experiment_id ∧
    r'.provider = r.provider ∧ r'.instrument = r.instrument ∧
    r'.input_system = r.input_system ∧ r'.profile_id = r.profile_id ∧
    r'.o_score = r.o_score ∧ r'.c_score = r.c_score ∧
    r'.e_score = r.e_score ∧ r'.a_score = r.a_score ∧
    r'.n_score = r.n_score ∧ r'.profile_label = r.profile_label ∧
    r'.attempts = r.attempts ∧ r'.started_at = r.started_at ∧
    r'.completed_at = r.completed_at ∧ r'.prompt_sent = r.prompt_sent)

/-- The argument dict of `db.insert_response` (runner.py builds it without a
`score_after_reverse` entry; the INSERT lists exactly these ten columns). -/
structure InsertResponseArg where
  test_case_id : Nat
  question_number : Nat
  question_text : String
  factor : String
  is_reversed : Bool
  raw_response : String
  parsed_score : Int
  response_time_ms : Option Nat
  sequence_position : Option Nat
  context_tokens : Option Nat
deriving Repr, DecidableEq

/-- One row of the `responses` table, all columns. -/
structure ResponseRow where
  test_case_id : Nat
  question_number : Nat
  question_text : String
  factor : String
  is_reversed : Bool
  raw_response : String
  parsed_score : Int
  score_after_reverse : Option Int
  response_time_ms : Option Nat
  sequence_position : Option Nat
  context_tokens : Option Nat
deriving Repr, DecidableEq

/-- `db.insert_response`: the INSERT omits the `score_after_reverse` column,
so the persisted row carries NULL there. -/
def insert_response_row (arg : InsertResponseArg) : ResponseRow :=
  { test_case_id := arg.test_case_id
    question_number := arg.question_number
    question_text := arg.question_text
    factor := arg.factor
    is_reversed := arg.is_reversed
    raw_response := arg.raw_response
    parsed_score := arg.parsed_score
    score_after_reverse := none
    response_time_ms := arg.response_time_ms
    sequence_position := arg.sequence_position
    context_tokens := arg.context_tokens }

/-- `db.save_response`: this INSERT does list `score_after_reverse` and
stores whatever value the caller passes. -/
def save_response_row (test_case_id question_number : Nat)
    (question_text factor : String) (is_rev : Bool) (raw_response : String)
    (parsed_score score_after_reverse : Int) (response_time_ms : Nat)
    (sequence_position context_tokens : Option Nat) : ResponseRow :=
  { test_case_id := test_case_id
    question_number := question_number
    question_text := question_text
    factor := factor
    is_reversed := is_rev
    raw_response := raw_response
    parsed_score := parsed_score
    score_after_reverse := some score_after_reverse
    response_time_ms := some response_time_ms
    sequence_position := sequence_position
    context_tokens := context_tokens }

/-- The argument dict of `db.insert_result` (no `duration_ms` column). -/
structure ResultArg where
  test_case_id : Nat
  total_score : ℚ
  factor_scores : List (String × ℚ)
  questions_answered : Nat
  questions_total : Nat
deriving Repr, DecidableEq

/-- One row of the `results` table. -/
structure ResultRow where
  test_case_id : Nat
  total_score : ℚ
  factor_scores : List (String × ℚ)
  questions_answered : Nat
  questions_total : Nat
  duration_ms : Option Nat
deriving Repr, DecidableEq

/-- The whole database state touched by the runner. -/
structure Db where
  test_cases : List TestCaseRow
  responses : List ResponseRow
  results : List ResultRow
deriving Repr, DecidableEq

/-- `db.update_test_case_status`: Python truthiness on the message decides
whether `error_message` is also set (None or the empty string leave it). -/
def update_test_case_status (db : Db) (id : Nat) (status : String)
    (error_message : Option String) : Db :=
  if (error_message.getD "") ≠ "" then
    { db with test_cases := db.test_cases.map fun r =>
        if r.id = id then { r with status := status, error_message := error_message }
        else r }
  else
    { db with test_cases := db.test_cases.map fun r =>
        if r.id = id then { r with status := status } else r }

/-- The status-flip UPDATE of `db.complete_test_case`: status to `complete`,
stamping `completed_at`.  `Database.execute` commits after every single
statement (db.py lines 69-75), so this statement is durably committed on its
own even inside the `db.transaction()` wrapper. -/
def complete_status_commit (id now : Nat) (db : Db) : Db :=
  { db with test_cases := db.test_cases.map fun r =>
      if r.id = id then { r with status := "complete", completed_at := some now }
      else r }

/-- The Result INSERT of `db.complete_test_case` (this one carries
`duration_ms`), likewise committed on its own by `Database.execute`. -/
def complete_result_commit (id : Nat) (total_score : ℚ)
    (factor_scores : List (String × ℚ))
    (questions_answered questions_total duration_ms : Nat) (db : Db) : Db :=
  { db with results := db.results ++
      [{ test_case_id := id, total_score := total_score,
         factor_scores := factor_scores,
         questions_answered := questions_answered,
         questions_total := questions_total,
         duration_ms := some duration_ms }] }

/-- `db.complete_test_case` as the sequence of its two separately committed
statements, status flip first, Result insert second.  The `db.transaction()`
context manager around them cannot merge the two: each `db.execute` call has
already committed (db.py lines 69-75), so the rollback on exception can undo
neither; a crash between the two applies only a prefix. -/
def complete_test_case (id now : Nat) (total_score : ℚ)
    (factor_scores : List (String × ℚ))
    (questions_answered questions_total duration_ms : Nat) : List (Db → Db) :=
  [complete_status_commit id now,
   complete_result_commit id total_score factor_scores questions_answered
     questions_total duration_ms]

/-- Apply a sequence of committed statements given as state transformers. -/
def apply_commits (db : Db) (cs : List (Db → Db)) : Db :=
  cs.foldl (fun d f => f d) db

/-- One autocommitted database statement issued by the runner.  Each
constructor is one commit: `Database.execute` commits after every single
statement. -/
inductive DbOp where
  | update_status (id : Nat) (status : String) (error_message : Option String)
  | insert_response (arg : InsertResponseArg)
  | insert_result (arg : ResultArg)
deriving Repr, DecidableEq

/-- Effect of one committed statement on the database state. -/
def apply_op (db : Db) : DbOp → Db
  | .update_status id status err => update_test_case_status db id status err
  | .insert_response arg =>
    { db with responses := db.responses ++ [insert_response_row arg] }
  | .insert_result arg =>
    { db with results := db.results ++
        [{ test_case_id := arg.test_case_id, total_score := arg.total_score,
           factor_scores := arg.factor_scores,
           questions_answered := arg.questions_answered,
           questions_total := arg.questions_total, duration_ms := none }] }

/-- Apply a sequence of committed statements; a crash corresponds to
applying only a prefix. -/
def apply_ops (db : Db) (ops : List DbOp) : Db :=
  ops.foldl apply_op db

/-! ### Provider clients (clients/base.py, clients/__init__.py) -/

/-- One role-tagged conversation turn. -/
structure Msg where
  role : String
  content : String
deriving Repr, DecidableEq

/-- `clients.base.CompletionResult`, the fields the runner reads. -/
structure CompletionResult where
  text : String
  prompt_tokens : Option Nat
  latency_ms : Option Nat
deriving Repr, DecidableEq

/-- `clients.base.RateLimiter`: interval gate state.  `min_interval` is
`60.0 / requests_per_minute`; time is modelled by exact rationals on the
monotonic clock. -/
structure RateLimiter where
  min_interval : ℚ
  last_request : ℚ
deriving Repr, DecidableEq

/-- `RateLimiter.__init__(requests_per_minute)`. -/
def RateLimiter.init (requests_per_minute : ℚ) : RateLimiter :=
  { min_interval := 60 / requests_per_minute, last_request := 0 }

/-- `RateLimiter.acquire`, one critical section under the asyncio lock:
entered at monotonic time `now`, it sleeps until `last_request +
min_interval` when needed and stamps `last_request` with the wake-up time.
Returns the grant time and the new state.  The asyncio lock serializes the
bodies of concurrent `acquire` calls, so a set of concurrent calls is
modelled as a sequence of these atomic steps. -/
def RateLimiter.acquire (rl : RateLimiter) (now : ℚ) : ℚ × RateLimiter :=
  let elapsed := now - rl.last_request
  if elapsed < rl.min_interval then
    let wake := now + (rl.min_interval - elapsed)
    (wake, { rl with last_request := wake })
  else
    (now, { rl with last_request := now })

/-- Grant times of a serialized sequence of `acquire` calls with the given
entry times. -/
def acquire_run (rl : RateLimiter) : List ℚ → List ℚ
  | [] => []
  | t :: ts => (rl.acquire t).1 :: acquire_run (rl.acquire t).2 ts

/-- The provider registry keys of `clients.__init__._PROVIDERS`. -/
def provider_registry : List String :=
  ["claude", "openai", "deepseek", "gemini", "xai"]

/-! ### The experiment runner (runner.py, ExperimentRunner.run_test_case) -/

/-- `models.OceanProfile`. -/
structure OceanProfile where
  openness : Int
  conscientiousness : Int
  extraversion : Int
  agreeableness : Int
  neuroticism : Int
  label : Option String := none
deriving Repr, DecidableEq

/-- An instrument as the runner consumes it: the fixed ordered question
list, the scale instructions, and the scoring function over the collected
responses dict. -/
structure Instrument where
  questions : List Question
  scale_instructions : String
  calculate_scores : List (Nat × Int) → InstrumentResult

/-- The Levenson instrument (`instruments/levenson.py`). -/
def levenson_instrument : Instrument :=
  { questions := levenson_questions
    scale_instructions := "Rate this statement on a scale of 1-5:\n1 = Strongly Disagree\n2 = Disagree\n3 = Neutral\n4 = Agree\n5 = Strongly Agree"
    calculate_scores := levenson_calculate_scores }

/-- The environment of one `run_test_case` execution: the configured API
keys, the mode flag, the registries resolved by string key, and the
provider client calls.  The two completion functions model the network:
`Except.error` is a raised provider error, and determinism in the request
captures an arbitrary but fixed provider behaviour for the run. -/
structure RunEnv where
  api_keys : List (String × String)
  longitudinal : Bool
  providers : List String
  instruments : List (String × Instrument)
  input_systems : List (String × (OceanProfile → String))
  complete : String → Except String CompletionResult
  complete_with_messages : List Msg → String → Except String CompletionResult

/-- The test case dict handed to `run_test_case`. -/
structure TestCaseInput where
  id : Nat
  provider : String
  instrument : String
  input_system : String
  o_score : Int
  c_score : Int
  e_score : Int
  a_score : Int
  n_score : Int
deriving Repr, DecidableEq

/-- The per-question user message template of runner.py. -/
def question_user_msg (q : Question) : String :=
  "Statement: \"" ++ q.text ++ "\"\n\nRespond with ONLY a single number (1, 2, 3, 4, or 5)."

/-- Python dict assignment `responses[k] = v`: replace in place or append. -/
def dict_insert (d : List (Nat × Int)) (k : Nat) (v : Int) : List (Nat × Int) :=
  if (d.find? (fun p => p.1 == k)).isSome then
    d.map fun p => if p.1 = k then (k, v) else p
  else d ++ [(k, v)]

/-- Output of the question loop: the responses dict, the database
statements issued so far, a ghost log of the message lists passed to each
completion request, the conversation history, and the raised exception when
one aborted the loop. -/
structure LoopOut where
  responses : List (Nat × Int)
  ops : List DbOp
  calls : List (List Msg)
  msgs : List Msg
  err : Option String
deriving Repr

/-- The question loop of `run_test_case` (runner.py lines 74-108), with
`seq_position` counting from 1.  In longitudinal mode the user message is
appended to the running history before the request and the assistant reply
after it; in independent mode each question is a fresh single prompt.
Each answered question commits one `insert_response`; an error ends the
loop keeping the statements already committed. -/
def run_questions (env : RunEnv) (tcId : Nat) (system_prompt : String) :
    List Question → Nat → List Msg → List (Nat × Int) → List DbOp →
    List (List Msg) → LoopOut
  | [], _, msgs, responses, ops, calls =>
    { responses := responses, ops := ops, calls := calls, msgs := msgs, err := none }
  | q :: rest, seq, msgs, responses, ops, calls =>
    let user_msg := question_user_msg q
    if env.longitudinal then
      let msgs1 := msgs ++ [⟨"user", user_msg⟩]
      match env.complete_with_messages msgs1 system_prompt with
      | .error e =>
        { responses := responses, ops := ops, calls := calls ++ [msgs1],
          msgs := msgs1, err := some e }
      | .ok res =>
        let score := parse_digit res.text
        let arg : InsertResponseArg :=
          { test_case_id := tcId, question_number := q.number,
            question_text := q.text, factor := q.factor,
            is_reversed := q.is_reversed, raw_response := res.text,
            parsed_score := score, response_time_ms := res.latency_ms,
            sequence_position := some seq, context_tokens := res.prompt_tokens }
        run_questions env tcId system_prompt rest (seq + 1)
          (msgs1 ++ [⟨"assistant", res.text⟩])
          (dict_insert responses q.number score)
          (ops ++ [DbOp.insert_response arg])
          (calls ++ [msgs1])
    else
      let prompt := system_prompt ++ "\n\n" ++ user_msg
      match env.complete prompt with
      | .error e =>
        { responses := responses, ops := ops,
          calls := calls ++ [[⟨"user", prompt⟩]], msgs := msgs, err := some e }
      | .ok res =>
        let score := parse_digit res.text
        let arg : InsertResponseArg :=
          { test_case_id := tcId, question_number := q.number,
            question_text := q.text, factor := q.factor,
            is_reversed := q.is_reversed, raw_response := res.text,
            parsed_score := score, response_time_ms := res.latency_ms,
            sequence_position := none, context_tokens := none }
        run_questions env tcId system_prompt rest (seq + 1) msgs
          (dict_insert responses q.number score)
          (ops ++ [DbOp.insert_response arg])
          (calls ++ [[⟨"user", prompt⟩]])

/-- `ExperimentRunner.run_test_case`: returns the success flag and the
sequence of committed database statements.  Resolution order follows the
source: API key (truthiness check in `_get_client`), provider registry
(`create_client`), instrument registry, input-system registry; any raised
exception is caught by the final handler, which records status `error`
with the message. -/
def run_test_case (env : RunEnv) (tc : TestCaseInput) : Bool × List DbOp :=
  if ((env.api_keys.find? (fun p => p.1 == tc.provider)).map (·.2)).getD "" = "" then
    (false, [DbOp.update_status tc.id "error"
      (some ("No API key for " ++ tc.provider))])
  else if !(env.providers.contains tc.provider) then
    (false, [DbOp.update_status tc.id "error"
      (some ("Unknown provider: " ++ tc.provider))])
  else
    match (env.instruments.find? (fun p => p.1 == tc.instrument)).map (·.2) with
    | none => (false, [DbOp.update_status tc.id "error"
        (some ("Unknown instrument: " ++ tc.instrument))])
    | some instrument =>
      match (env.input_systems.find? (fun p => p.1 == tc.input_system)).map (·.2) with
      | none => (false, [DbOp.update_status tc.id "error"
          (some ("Unknown input system: " ++ tc.input_system))])
      | some input_system =>
        let profile : OceanProfile :=
          ⟨tc.o_score, tc.c_score, tc.e_score, tc.a_score, tc.n_score, none⟩
        let system_prompt := input_system profile ++
          "\n\nBased on these personality traits, " ++ instrument.scale_instructions
        let out := run_questions env tc.id system_prompt instrument.questions 1
          [] [] [DbOp.update_status tc.id "running" none] []
        match out.err with
        | some e => (false, out.ops ++ [DbOp.update_status tc.id "error" (some e)])
        | none =>
          let res := instrument.calculate_scores out.responses
          (true, out.ops ++
            [DbOp.insert_result
              { test_case_id := tc.id, total_score := res.total_score,
                factor_scores := res.factor_scores,
                questions_answered := res.questions_answered,
                questions_total := res.questions_total },
             DbOp.update_status tc.id "complete" none])

/-- Modelled from the spec (§4.4 longitudinal mode and §8 Ordering): the
expected message history of each request, built as the prior
question/answer pairs in order followed by the current user message, where
each answer is the provider reply to the history that was sent. -/
def spec_longitudinal_calls (reply : List Msg → String) :
    List Msg → List String → List (List Msg)
  | _, [] => []
  | pairs, u :: us =>
    let sent := pairs ++ [⟨"user", u⟩]
    sent :: spec_longitudinal_calls reply (sent ++ [⟨"assistant", reply sent⟩]) us

/-! ### Observers and concrete fixtures -/

/-- Sequence position carried by an `insert_response` statement. -/
def op_seq_position : DbOp → Option Nat
  | .insert_response arg => arg.sequence_position
  | _ => none

/-- Question number carried by an `insert_response` statement. -/
def op_question_number : DbOp → Option Nat
  | .insert_response arg => some arg.question_number
  | _ => none

/-- Whether a statement inserts a result row. -/
def op_is_insert_result : DbOp → Bool
  | .insert_result _ => true
  | _ => false

/-- Status written by a status-update statement. -/
def op_status_of : DbOp → Option String
  | .update_status _ s _ => some s
  | _ => none

/-- A concrete test-case row used by witnesses. -/
def sample_row : TestCaseRow :=
  { id := 1, experiment_id := 7, provider := "claude", instrument := "levenson",
    input_system := "ocean_direct", profile_id := 2, o_score := 50, c_score := 25,
    e_score := 50, a_score := 0, n_score := 50, profile_label := some "neutral",
    status := "locked", attempts := 0, locked_at := some 5, worker_id := some "w1",
    started_at := none, completed_at := none, error_message := none,
    prompt_sent := none }

/-- A small instrument sharing the Levenson scoring function. -/
def mock_instrument (qs : List Question) : Instrument :=
  { questions := qs
    scale_instructions := "Rate this statement on a scale of 1-5"
    calculate_scores := levenson_calculate_scores }

/-- A concrete runner environment whose provider always replies `reply`. -/
def mock_env (provider : String) (longitudinal : Bool) (qs : List Question)
    (reply : String) : RunEnv :=
  { api_keys := [(provider, "k")]
    longitudinal := longitudinal
    providers := provider_registry
    instruments := [("levenson", mock_instrument qs)]
    input_systems := [("ocean_direct", fun _ => "You are a person")]
    complete := fun _ => .ok ⟨reply, none, none⟩
    complete_with_messages := fun _ _ => .ok ⟨reply, none, none⟩ }

/-- A concrete test-case input used by witnesses. -/
def mock_tc (provider : String) : TestCaseInput :=
  ⟨1, provider, "levenson", "ocean_direct", 50, 25, 50, 0, 50⟩

/-- A concrete claimable row used by witnesses. -/
def pending_row : TestCaseRow :=
  { sample_row with status := "pending", locked_at := none, worker_id := none }

/-! ### Helper lemmas -/

theorem mem_dropWhile {α} (p : α → Bool) {l : List α} {x : α}
    (h : x ∈ l.dropWhile p) : x ∈ l :=
  (List.dropWhile_sublist p).subset h

theorem mem_py_strip {l : List Char} {c : Char} (h : c ∈ py_strip l) : c ∈ l := by
  unfold py_strip at h
  rw [List.mem_reverse] at h
  have h1 := mem_dropWhile _ h
  rw [List.mem_reverse] at h1
  exact mem_dropWhile _ h1

theorem mem_clean_text {l : List Char} {c : Char} (h : c ∈ clean_text l) : c ∈ l := by
  unfold clean_text at h
  exact mem_py_strip (List.mem_of_mem_filter h)

theorem scan_digit_bounds {l : List Char} {d : Int}
    (h : scan_digit l = some d) : 1 ≤ d ∧ d ≤ 5 := by
  induction l with
  | nil => simp [scan_digit] at h
  | cons c t ih =>
    rw [scan_digit] at h
    by_cases hc : is_ascii_digit c
    · simp only [hc, if_true] at h
      by_cases hr : 1 ≤ ((c.toNat - 48 : Nat) : Int) ∧ ((c.toNat - 48 : Nat) : Int) ≤ 5
      · simp only [hr, if_pos] at h
        cases h
        exact hr
      · simp only [hr, if_neg, not_false_iff] at h
        exact ih h
    · simp only [hc, if_false, Bool.false_eq_true] at h
      exact ih h

theorem scan_digit_none {l : List Char}
    (h : ∀ c ∈ l, ¬(49 ≤ c.toNat ∧ c.toNat ≤ 53)) : scan_digit l = none := by
  induction l with
  | nil => rfl
  | cons c t ih =>
    have hc := h c (List.mem_cons_self c t)
    have ht : ∀ x ∈ t, ¬(49 ≤ x.toNat ∧ x.toNat ≤ 53) :=
      fun x hx => h x (List.mem_cons_of_mem c hx)
    rw [scan_digit]
    by_cases hd : is_ascii_digit c
    · have h48 : 48 ≤ c.toNat ∧ c.toNat ≤ 57 := by
        unfold is_ascii_digit at hd
        simpa [decide_eq_true_eq] using hd
      have hout : ¬(1 ≤ ((c.toNat - 48 : Nat) : Int) ∧ ((c.toNat - 48 : Nat) : Int) ≤ 5) := by
        intro hin
        apply hc
        omega
      simp only [hd, if_true, hout, if_neg, not_false_iff]
      exact ih ht
    · simp only [hd, if_false, Bool.false_eq_true]
      exact ih ht

theorem digits_val_aux {ds : List Char} (a : Nat)
    (hall : ∀ c ∈ ds, (48 ≤ c.toNat ∧ c.toNat ≤ 57) ∧ ¬(49 ≤ c.toNat ∧ c.toNat ≤ 53))
    (ha : a = 0 ∨ 6 ≤ a) :
    ds.foldl (fun a c => 10 * a + (c.toNat - 48)) a = 0 ∨
      6 ≤ ds.foldl (fun a c => 10 * a + (c.toNat - 48)) a := by
  induction ds generalizing a with
  | nil => simpa using ha
  | cons c t ih =>
    have hc := hall c (List.mem_cons_self c t)
    have ht : ∀ x ∈ t, (48 ≤ x.toNat ∧ x.toNat ≤ 57) ∧ ¬(49 ≤ x.toNat ∧ x.toNat ≤ 53) :=
      fun x hx => hall x (List.mem_cons_of_mem c hx)
    rw [List.foldl_cons]
    exact ih (10 * a + (c.toNat - 48)) ht (by omega)

theorem digits_val_out_of_range {ds : List Char}
    (hall : ∀ c ∈ ds, (48 ≤ c.toNat ∧ c.toNat ≤ 57) ∧ ¬(49 ≤ c.toNat ∧ c.toNat ≤ 53)) :
    digits_val ds = 0 ∨ 6 ≤ digits_val ds :=
  digits_val_aux 0 hall (Or.inl rfl)

theorem py_int_in_range_has_digit {l : List Char} {v : Int}
    (h : py_int l = some v) (h1 : 1 ≤ v) (h5 : v ≤ 5) :
    ∃ c ∈ l, 49 ≤ c.toNat ∧ c.toNat ≤ 53 := by
  by_contra hno
  push_neg at hno
  have hall : ∀ c ∈ py_strip l, ¬(49 ≤ c.toNat ∧ c.toNat ≤ 53) := by
    intro c hc hrange
    have := hno c (mem_py_strip hc) hrange.1
    omega
  simp only [py_int] at h
  revert h
  cases hstrip : py_strip l with
  | nil => simp
  | cons c0 ds =>
    simp only [List.isEmpty_cons, List.head?_cons, List.tail_cons,
      Option.some.injEq, Bool.false_eq_true, if_false]
    have hmem0 : ∀ x ∈ c0 :: ds, ¬(49 ≤ x.toNat ∧ x.toNat ≤ 53) := by
      rw [← hstrip]; exact hall
    have hds : ∀ x ∈ ds, ¬(49 ≤ x.toNat ∧ x.toNat ≤ 53) :=
      fun x hx => hmem0 x (List.mem_cons_of_mem c0 hx)
    have key : ∀ (es : List Char), (∀ x ∈ es, ¬(49 ≤ x.toNat ∧ x.toNat ≤ 53)) →
        all_digits es = true → ¬((digits_val es : Int) = v) := by
      intro es hes hd hv
      have hall2 : ∀ c ∈ es, (48 ≤ c.toNat ∧ c.toNat ≤ 57) ∧
          ¬(49 ≤ c.toNat ∧ c.toNat ≤ 53) := by
        intro c hc
        refine ⟨?_, hes c hc⟩
        unfold all_digits at hd
        simp only [Bool.and_eq_true, List.all_eq_true] at hd
        have := hd.2 c hc
        unfold is_ascii_digit at this
        simpa [decide_eq_true_eq] using this
      rcases digits_val_out_of_range hall2 with h0 | h6
      · rw [h0] at hv; omega
      · have : (6 : Int) ≤ (digits_val es : Int) := by exact_mod_cast h6
        omega
    intro h
    by_cases hminus : c0 = '-'
    · rw [if_pos hminus] at h
      by_cases hd : all_digits ds = true
      · simp only [hd, if_true, Option.some.injEq] at h
        have : (0:Int) ≤ (digits_val ds : Int) := Int.natCast_nonneg _
        omega
      · simp [hd] at h
    · rw [if_neg hminus] at h
      by_cases hplus : c0 = '+'
      · rw [if_pos hplus] at h
        by_cases hd : all_digits ds = true
        · simp only [hd, if_true, Option.some.injEq] at h
          exact key ds hds hd h
        · simp [hd] at h
      · rw [if_neg hplus] at h
        by_cases hd : all_digits (c0 :: ds) = true
        · rw [if_pos hd] at h
          have := key (c0 :: ds) hmem0 hd
          simp only [Option.some.injEq] at h
          exact this h
        · rw [if_neg hd] at h
          exact Option.noConfusion h

theorem scan_getD_bounds (l : List Char) :
    1 ≤ (scan_digit l).getD 3 ∧ (scan_digit l).getD 3 ≤ 5 := by
  cases hs : scan_digit l with
  | none => simp
  | some d => simpa using scan_digit_bounds hs

/-- C5: for every input text, `parse_digit` returns an integer in `[1,5]`
(exact numeric parse of the cleaned text first, then a scan for the first
digit in range, defaulting to 3), and for every text containing no digit in
1..5 (character codes 49..53) it returns 3. -/
theorem c5_parse_rating (text : String) :
    (1 ≤ parse_digit text ∧ parse_digit text ≤ 5) ∧
    ((∀ c ∈ text.data, ¬(49 ≤ c.toNat ∧ c.toNat ≤ 53)) → parse_digit text = 3) := by
  constructor
  · simp only [parse_digit]
    cases hp : py_int (clean_text text.data) with
    | none => exact scan_getD_bounds _
    | some v =>
      by_cases hr : 1 ≤ v ∧ v ≤ 5
      · simp [hr]
      · simp only [hr, if_false]
        exact scan_getD_bounds _
  · intro hno
    have hcl : ∀ c ∈ clean_text text.data, ¬(49 ≤ c.toNat ∧ c.toNat ≤ 53) :=
      fun c hc => hno c (mem_clean_text hc)
    have hscan := scan_digit_none hcl
    simp only [parse_digit]
    cases hp : py_int (clean_text text.data) with
    | none => simp [hscan]
    | some v =>
      by_cases hr : 1 ≤ v ∧ v ≤ 5
      · rcases py_int_in_range_has_digit hp hr.1 hr.2 with ⟨c, hc, hcr⟩
        exact absurd hcr (hcl c hc)
      · simp [hr, hscan]

/-- Witness for C5 at a concrete digit-free response text. -/
theorem c5_parse_rating_witness :
    (1 ≤ parse_digit "I strongly disagree." ∧ parse_digit "I strongly disagree." ≤ 5) ∧
    parse_digit "I strongly disagree." = 3 :=
  ⟨(c5_parse_rating "I strongly disagree.").1,
   (c5_parse_rating "I strongly disagree.").2 (by decide)⟩

theorem acquire_grant_ge (rl : RateLimiter) (t : ℚ) :
    rl.last_request + rl.min_interval ≤ (rl.acquire t).1 := by
  unfold RateLimiter.acquire
  by_cases h : t - rl.last_request < rl.min_interval
  · simp only [h, if_true]
    linarith
  · simp only [h, if_false]
    linarith [not_lt.mp h]

theorem acquire_state (rl : RateLimiter) (t : ℚ) :
    (rl.acquire t).2.last_request = (rl.acquire t).1 ∧
    (rl.acquire t).2.min_interval = rl.min_interval := by
  unfold RateLimiter.acquire
  by_cases h : t - rl.last_request < rl.min_interval <;> simp [h]

theorem acquire_run_chain (m : ℚ) (rl : RateLimiter) (ts : List ℚ)
    (hm : rl.min_interval = m) :
    List.Chain' (fun g1 g2 => g1 + m ≤ g2) (acquire_run rl ts) := by
  induction ts generalizing rl with
  | nil => simp [acquire_run]
  | cons t ts ih =>
    rw [acquire_run]
    rcases ts with _ | ⟨t2, ts'⟩
    · simp [acquire_run]
    · rw [acquire_run]
      refine List.Chain'.cons ?_ ?_
      · have h1 := acquire_grant_ge (rl.acquire t).2 t2
        have h2 := acquire_state rl t
        rw [h2.1, h2.2, hm] at h1
        exact h1
      · have := ih (rl.acquire t).2 (by rw [(acquire_state rl t).2, hm])
        rw [acquire_run] at this
        exact this

/-- C7: for every serialized sequence of `acquire` calls on one RateLimiter
configured at `rpm` requests per minute, consecutive grant timestamps are at
least `60 / rpm` seconds apart.  The asyncio lock of the source serializes
the bodies of concurrent `acquire` calls, which the model renders as a
sequence of atomic acquire steps with arbitrary entry times. -/
theorem c7_rate_spacing (rpm : ℚ) (_hrpm : 0 < rpm) (ts : List ℚ) :
    List.Chain' (fun g1 g2 => g1 + 60 / rpm ≤ g2)
      (acquire_run (RateLimiter.init rpm) ts) :=
  acquire_run_chain (60 / rpm) (RateLimiter.init rpm) ts rfl

/-- Witness for C7: sixty requests per minute, three concrete entry times. -/
theorem c7_rate_spacing_witness :
    (0 : ℚ) < 60 ∧
    List.Chain' (fun g1 g2 => g1 + 60 / 60 ≤ g2)
      (acquire_run (RateLimiter.init 60) [0, 1/2, 5]) :=
  ⟨by norm_num, c7_rate_spacing 60 (by norm_num) [0, 1/2, 5]⟩

/-- C8: a job whose instrument yields zero answerable questions still
completes with a well-defined Result having `questions_answered = 0`: the
runner emits the running update, one result insert computed by the Levenson
scoring function on the empty responses dict (whose factor normalization
maps empty score lists to 0 instead of dividing by zero), and the completion
update; no exception is raised. -/
theorem c8_zero_questions (env : RunEnv) (tc : TestCaseInput) (inst : Instrument)
    (f : OceanProfile → String)
    (hkey : ((env.api_keys.find? (fun p => p.1 == tc.provider)).map (·.2)).getD "" ≠ "")
    (hprov : env.providers.contains tc.provider = true)
    (hinst : (env.instruments.find? (fun p => p.1 == tc.instrument)).map (·.2) = some inst)
    (hsys : (env.input_systems.find? (fun p => p.1 == tc.input_system)).map (·.2) = some f)
    (hq : inst.questions = [])
    (hcalc : inst.calculate_scores = levenson_calculate_scores) :
    run_test_case env tc = (true,
      [DbOp.update_status tc.id "running" none,
       DbOp.insert_result
         { test_case_id := tc.id, total_score := 0,
           factor_scores := [("primary", 0), ("secondary", 0)],
           questions_answered := 0, questions_total := 26 },
       DbOp.update_status tc.id "complete" none]) ∧
    (levenson_calculate_scores []).questions_answered = 0 := by
  have hn : levenson_normalize [] = 0 := by simp [levenson_normalize]
  have h0 : levenson_calculate_scores [] =
      { instrument := "levenson", total_score := 0,
        factor_scores := [("primary", 0), ("secondary", 0)],
        questions_answered := 0, questions_total := 26 } := by
    unfold levenson_calculate_scores levenson_partition
    simp only [hn, List.length_nil, InstrumentResult.mk.injEq]
    norm_num
    decide
  refine ⟨?_, by rw [h0]⟩
  unfold run_test_case
  rw [if_neg hkey, hprov]
  simp only [Bool.not_true, Bool.false_eq_true, if_false, hinst, hsys, hq, hcalc]
  rw [run_questions, h0]
  rfl

/-- Witness for C8 at a concrete zero-question environment. -/
theorem c8_zero_questions_witness :
    run_test_case (mock_env "claude" false [] "4") (mock_tc "claude") = (true,
      [DbOp.update_status (mock_tc "claude").id "running" none,
       DbOp.insert_result
         { test_case_id := (mock_tc "claude").id, total_score := 0,
           factor_scores := [("primary", 0), ("secondary", 0)],
           questions_answered := 0, questions_total := 26 },
       DbOp.update_status (mock_tc "claude").id "complete" none]) ∧
    (levenson_calculate_scores []).questions_answered = 0 :=
  c8_zero_questions (mock_env "claude" false [] "4") (mock_tc "claude")
    (mock_instrument []) (fun _ => "You are a person")
    (by decide) (by decide) rfl rfl rfl rfl

theorem apply_op_responses_none {db : Db} (op : DbOp)
    (hdb : ∀ r ∈ db.responses, r.score_after_reverse = none) :
    ∀ r ∈ (apply_op db op).responses, r.score_after_reverse = none := by
  cases op with
  | update_status id s e =>
    intro r hr
    simp only [apply_op] at hr
    unfold update_test_case_status at hr
    split at hr <;> exact hdb r hr
  | insert_response arg =>
    intro r hr
    simp only [apply_op] at hr
    simp only [List.mem_append, List.mem_singleton] at hr
    rcases hr with hr | hr
    · exact hdb r hr
    · rw [hr]; rfl
  | insert_result arg =>
    intro r hr
    simp only [apply_op] at hr
    exact hdb r hr

theorem apply_ops_responses_none (ops : List DbOp) (db : Db)
    (hdb : ∀ r ∈ db.responses, r.score_after_reverse = none) :
    ∀ r ∈ (apply_ops db ops).responses, r.score_after_reverse = none := by
  induction ops generalizing db with
  | nil => exact hdb
  | cons op ops ih =>
    rw [apply_ops, List.foldl_cons]
    exact ih (apply_op db op) (apply_op_responses_none op hdb)

/-- C9 counterexample: running a job over one reversed question with provider
reply "4" persists a Response row whose `score_after_reverse` column is NULL,
not `6 - parsed_score = 2` as the claim states. -/
theorem c9_counterexample :
    (apply_ops ⟨[], [], []⟩
        (run_test_case (mock_env "claude" false [⟨1, "t", "primary", true⟩] "4")
          (mock_tc "claude")).2).responses.map
      (fun r => (r.is_reversed, r.parsed_score, r.score_after_reverse)) =
      [(true, 4, none)] ∧
    ¬((none : Option Int) = some (6 - 4)) := by
  constructor
  · decide
  · decide

/-- C9 amended: Response rows persisted through the runner's
`insert_response` path carry NULL `score_after_reverse` (the INSERT omits the
column); the reversal transform `apply_reverse_scoring`, applied at scoring
time, maps a score in [1,5] to `6 - score` when the reversal flag is set and
keeps it in [1,5]. -/
theorem c9_reverse_scoring (env : RunEnv) (tc : TestCaseInput) (db : Db)
    (score : Int) (rev : Bool) (h1 : 1 ≤ score) (h5 : score ≤ 5)
    (hdb : ∀ r ∈ db.responses, r.score_after_reverse = none) :
    (∀ r ∈ (apply_ops db (run_test_case env tc).2).responses,
      r.score_after_reverse = none) ∧
    (1 ≤ apply_reverse_scoring score rev ∧ apply_reverse_scoring score rev ≤ 5) := by
  refine ⟨apply_ops_responses_none _ db hdb, ?_⟩
  unfold apply_reverse_scoring
  cases rev <;> simp <;> omega

/-- Witness for C9 amended at a concrete run and a concrete reversed score. -/
theorem c9_reverse_scoring_witness :
    (∀ r ∈ (apply_ops ⟨[], [], []⟩
        (run_test_case (mock_env "claude" true [⟨1, "t", "primary", true⟩] "4")
          (mock_tc "claude")).2).responses,
      r.score_after_reverse = none) ∧
    (1 ≤ apply_reverse_scoring 4 true ∧ apply_reverse_scoring 4 true ≤ 5) :=
  c9_reverse_scoring _ _ _ 4 true (by norm_num) (by norm_num) (by simp)

theorem forall₂_map_self {α : Type} (P : α → α → Prop) (g : α → α) (l : List α)
    (h : ∀ a, P a (g a)) : List.Forall₂ P l (l.map g) := by
  induction l with
  | nil => exact List.Forall₂.nil
  | cons a t ih => exact List.Forall₂.cons (h a) ih

/-- C10: `fail_test_case` clears `locked_at` and `worker_id` in both the
retry and the terminal failed outcome, records the message, and modifies no
field other than `status`, `error_message`, `locked_at`, `worker_id`; rows
with a different id are untouched. -/
theorem c10_fail_frame (tbl : List TestCaseRow) (id : Nat) (msg : String)
    (retry : Bool) (tbl' : List TestCaseRow)
    (h : fail_test_case tbl id msg retry = some tbl') :
    List.Forall₂ (fail_frame_rel id msg) tbl tbl' := by
  unfold fail_test_case at h
  have main : ∀ (s : String), (s = "retry" ∨ s = "failed") →
      tbl' = tbl.map (fun r =>
        if r.id = id then
          { r with status := s, error_message := some msg,
                   locked_at := none, worker_id := none }
        else r) →
      List.Forall₂ (fail_frame_rel id msg) tbl tbl' := by
    intro s hs htbl
    rw [htbl]
    refine forall₂_map_self _ _ tbl ?_
    intro r
    unfold fail_frame_rel
    by_cases hid : r.id = id
    · rw [if_pos hid]
      exact ⟨fun hne => absurd hid hne,
        fun _ => ⟨rfl, rfl, rfl, hs, rfl, rfl, rfl, rfl, rfl, rfl, rfl, rfl,
          rfl, rfl, rfl, rfl, rfl, rfl, rfl, rfl⟩⟩
    · rw [if_neg hid]
      exact ⟨fun _ => rfl, fun heq => absurd heq hid⟩
  cases hs : fail_status tbl id retry with
  | none => rw [hs] at h; exact Option.noConfusion h
  | some s =>
    rw [hs] at h
    simp only [Option.map_some'] at h
    injection h with h
    have hs2 : s = "retry" ∨ s = "failed" := by
      unfold fail_status at hs
      by_cases hretry : retry
      · simp only [hretry, if_true] at hs
        cases hfind : tbl.find? (fun r => r.id == id) with
        | none => rw [hfind] at hs; exact Option.noConfusion hs
        | some r0 =>
          rw [hfind] at hs
          simp only [Option.some.injEq] at hs
          by_cases h3 : r0.attempts < 3
          · rw [if_pos h3] at hs; exact Or.inl hs.symm
          · rw [if_neg h3] at hs; exact Or.inr hs.symm
      · simp only [hretry, Bool.false_eq_true, if_false, Option.some.injEq] at hs
        exact Or.inr hs.symm
    exact main s hs2 h.symm

/-- Witness for C10 at a concrete locked row on the retry branch. -/
theorem c10_fail_frame_witness :
    List.Forall₂ (fail_frame_rel 1 "boom") [sample_row]
      [{ sample_row with status := "retry", error_message := some "boom",
                         locked_at := none, worker_id := none }] :=
  c10_fail_frame [sample_row] 1 "boom" true _ (by decide)

theorem fail_singleton (r : TestCaseRow) (id : Nat) (m : String) (b : Bool)
    (hid : r.id = id) :
    fail_test_case [r] id m b = some
      [{ r with status := (if b ∧ r.attempts < 3 then "retry" else "failed"),
                error_message := some m, locked_at := none, worker_id := none }] := by
  unfold fail_test_case fail_status
  cases b with
  | false => simp [hid]
  | true =>
    simp only [if_true, List.find?_singleton, hid, beq_self_eq_true, if_pos,
      Option.map_some', true_and, List.map_cons, List.map_nil]

theorem start_singleton (r : TestCaseRow) (id now : Nat) (prompt : String)
    (hid : r.id = id) :
    start_test_case [r] id prompt now =
      [{ r with status := "running", started_at := some now,
                attempts := r.attempts + 1, prompt_sent := some prompt }] := by
  unfold start_test_case
  simp [hid]

theorem attempt_cycles_singleton (id now : Nat) (prompt msg : String) :
    ∀ (k : Nat) (r : TestCaseRow), r.id = id →
    ∃ r', attempt_cycles id now prompt msg k [r] = some [r'] ∧
      r'.id = id ∧
      r'.attempts = r.attempts + k ∧
      (k = 0 → r' = r) ∧
      (1 ≤ k → r'.status = (if r.attempts + k < 3 then "retry" else "failed") ∧
               r'.error_message = some msg) := by
  intro k
  induction k with
  | zero =>
    intro r hid
    exact ⟨r, rfl, hid, by omega, fun _ => rfl, fun h => absurd h (by omega)⟩
  | succ k ih =>
    intro r hid
    have hstep : attempt_cycle [r] id now prompt msg =
        some [retry_cycle_row r now prompt msg] := by
      unfold attempt_cycle retry_cycle_row
      rw [start_singleton r id now prompt hid]
      rw [fail_singleton { r with status := "running", started_at := some now,
                                  attempts := r.attempts + 1,
                                  prompt_sent := some prompt } id msg true hid]
      simp
    rcases ih (retry_cycle_row r now prompt msg) hid
      with ⟨r', hrun, hid', hatt, hzero, hpos⟩
    have hattc : (retry_cycle_row r now prompt msg).attempts = r.attempts + 1 := rfl
    refine ⟨r', ?_, hid', ?_, fun h => absurd h (by omega), ?_⟩
    · rw [attempt_cycles, hstep]
      exact hrun
    · rw [hatt, hattc]
      omega
    · intro _
      rcases Nat.eq_zero_or_pos k with hk0 | hkpos
      · subst hk0
        rw [hzero rfl]
        exact ⟨rfl, rfl⟩
      · have hp := hpos hkpos
        refine ⟨?_, hp.2⟩
        rw [hp.1, hattc]
        have heq : r.attempts + 1 + k = r.attempts + (k + 1) := by omega
        rw [heq]

/-- C2: `fail_test_case` with a retryable error transitions the job to
`retry` when `attempts < 3` and to `failed` otherwise, always recording the
error message; since `start_test_case` increments `attempts` on each run, a
job that starts with zero attempts and repeatedly fails with retryable
errors reaches `failed` exactly after the third failed attempt, never
earlier. -/
theorem c2_retry_bound :
    (∀ (r : TestCaseRow) (id : Nat) (m : String) (b : Bool), r.id = id →
      fail_test_case [r] id m b = some
        [{ r with status := (if b ∧ r.attempts < 3 then "retry" else "failed"),
                  error_message := some m, locked_at := none, worker_id := none }]) ∧
    (∀ (r : TestCaseRow) (id now : Nat) (prompt m : String) (k : Nat),
      r.id = id → r.attempts = 0 → 1 ≤ k →
      ∃ r', attempt_cycles id now prompt m k [r] = some [r'] ∧
        r'.attempts = k ∧
        r'.status = (if k < 3 then "retry" else "failed") ∧
        (r'.status = "failed" ↔ 3 ≤ k)) := by
  refine ⟨fail_singleton, ?_⟩
  intro r id now prompt m k hid h0 hk
  rcases attempt_cycles_singleton id now prompt m k r hid
    with ⟨r', hrun, _, hatt, _, hpos⟩
  rcases hpos hk with ⟨hstat, _⟩
  rw [h0] at hatt hstat
  simp only [Nat.zero_add] at hatt hstat
  refine ⟨r', hrun, hatt, hstat, ?_⟩
  by_cases h3 : k < 3
  · rw [hstat, if_pos h3]
    constructor
    · intro hcontra; exact absurd hcontra (by decide)
    · omega
  · rw [hstat, if_neg h3]
    constructor
    · intro _; omega
    · intro _; rfl

/-- Witness for C2: a concrete row failing on the retry branch, and the
three-cycle lifecycle ending in `failed`. -/
theorem c2_retry_bound_witness :
    (fail_test_case [sample_row] 1 "timeout" true = some
      [{ sample_row with
           status := (if true ∧ sample_row.attempts < 3 then "retry" else "failed"),
           error_message := some "timeout", locked_at := none, worker_id := none }]) ∧
    (∃ r', attempt_cycles 1 9 "prompt" "timeout" 3 [sample_row] = some [r'] ∧
      r'.attempts = 3 ∧
      r'.status = (if 3 < 3 then "retry" else "failed") ∧
      (r'.status = "failed" ↔ 3 ≤ 3)) :=
  ⟨c2_retry_bound.1 sample_row 1 "timeout" true rfl,
   c2_retry_bound.2 sample_row 1 9 "prompt" "timeout" 3 rfl rfl (by norm_num)⟩

theorem claim_none_spec (p w : String) (t : Nat) (tbl : List TestCaseRow)
    (h : (claim_test_case p w t tbl).1 = none) :
    (claim_test_case p w t tbl).2 = tbl ∧ ∀ r ∈ tbl, eligible p r = false := by
  induction tbl with
  | nil => exact ⟨rfl, by simp⟩
  | cons r rest ih =>
    by_cases he : eligible p r
    · rw [claim_test_case, if_pos he] at h
      exact Option.noConfusion h
    · rw [claim_test_case, if_neg he] at h
      rw [claim_test_case, if_neg he]
      rcases ih h with ⟨h2, hall⟩
      refine ⟨by rw [h2], ?_⟩
      intro x hx
      rcases List.mem_cons.mp hx with hx | hx
      · rw [hx]; exact Bool.not_eq_true _ ▸ (by simpa using he)
      · exact hall x hx

theorem claim_some_spec (p w : String) (t : Nat) (tbl : List TestCaseRow)
    (r' : TestCaseRow) (h : (claim_test_case p w t tbl).1 = some r') :
    ∃ pre r post, tbl = pre ++ r :: post ∧
      (∀ x ∈ pre, eligible p x = false) ∧
      eligible p r = true ∧ r' = lock_row w t r ∧
      (claim_test_case p w t tbl).2 = pre ++ lock_row w t r :: post := by
  induction tbl with
  | nil => exact Option.noConfusion h
  | cons r rest ih =>
    by_cases he : eligible p r
    · rw [claim_test_case, if_pos he] at h
      simp only [Option.some.injEq] at h
      exact ⟨[], r, rest, rfl, by simp, he, h.symm,
        by rw [claim_test_case, if_pos he]; rfl⟩
    · rw [claim_test_case, if_neg he] at h
      rcases ih h with ⟨pre, r0, post, htbl, hpre, hel, hr', h2⟩
      refine ⟨r :: pre, r0, post, by rw [htbl]; rfl, ?_, hel, hr', ?_⟩
      · intro x hx
        rcases List.mem_cons.mp hx with hx | hx
        · rw [hx]; exact Bool.not_eq_true _ ▸ (by simpa using he)
        · exact hpre x hx
      · rw [claim_test_case, if_neg he, h2]
        rfl

theorem claim_ids (p w : String) (t : Nat) (tbl : List TestCaseRow) :
    (claim_test_case p w t tbl).2.map (·.id) = tbl.map (·.id) := by
  induction tbl with
  | nil => rfl
  | cons r rest ih =>
    by_cases he : eligible p r
    · rw [claim_test_case, if_pos he]
      rfl
    · rw [claim_test_case, if_neg he]
      simp only [List.map_cons]
      rw [ih]

theorem eligible_status {p : String} {r : TestCaseRow}
    (he : eligible p r = true) : r.status = "pending" ∨ r.status = "retry" := by
  unfold eligible at he
  simp only [Bool.and_eq_true, Bool.or_eq_true, beq_iff_eq] at he
  exact he.1

theorem status_of_nil (i : Nat) : status_of [] i = none := rfl

theorem status_of_cons_pos (r : TestCaseRow) (rest : List TestCaseRow) (i : Nat)
    (h : (r.id == i) = true) : status_of (r :: rest) i = some r.status := by
  unfold status_of
  rw [show List.find? (fun x => x.id == i) (r :: rest) = some r from
    List.find?_cons_of_pos _ h]
  rfl

theorem status_of_cons_neg (r : TestCaseRow) (rest : List TestCaseRow) (i : Nat)
    (h : (r.id == i) = false) : status_of (r :: rest) i = status_of rest i := by
  unfold status_of
  rw [show List.find? (fun x => x.id == i) (r :: rest) =
      List.find? (fun x => x.id == i) rest from
    List.find?_cons_of_neg _ (by simp [h])]

theorem status_of_append_right (pre rest : List TestCaseRow) (i : Nat)
    (h : ∀ x ∈ pre, (x.id == i) = false) :
    status_of (pre ++ rest) i = status_of rest i := by
  induction pre with
  | nil => rfl
  | cons a pre ih =>
    rw [List.cons_append, status_of_cons_neg a _ i (h a (List.mem_cons_self a pre))]
    exact ih (fun x hx => h x (List.mem_cons_of_mem _ hx))

theorem claim_preserves_locked (p w : String) (t : Nat) (tbl : List TestCaseRow)
    (i : Nat) (h : status_of tbl i = some "locked") :
    status_of (claim_test_case p w t tbl).2 i = some "locked" := by
  induction tbl with
  | nil => exact absurd h (by simp [status_of])
  | cons r rest ih =>
    by_cases he : eligible p r
    · rw [claim_test_case, if_pos he]
      show status_of (lock_row w t r :: rest) i = some "locked"
      cases hidr : (r.id == i) with
      | true =>
        rw [status_of_cons_pos r rest i hidr] at h
        injection h with h
        rcases eligible_status he with hs | hs <;> rw [hs] at h <;>
          exact absurd h (by decide)
      | false =>
        rw [status_of_cons_neg r rest i hidr] at h
        rw [status_of_cons_neg (lock_row w t r) rest i hidr]
        exact h
    · rw [claim_test_case, if_neg he]
      show status_of (r :: (claim_test_case p w t rest).2) i = some "locked"
      cases hidr : (r.id == i) with
      | true =>
        rw [status_of_cons_pos r rest i hidr] at h
        rw [status_of_cons_pos r _ i hidr]
        exact h
      | false =>
        rw [status_of_cons_neg r rest i hidr] at h
        rw [status_of_cons_neg r _ i hidr]
        exact ih h

theorem nodup_middle_ne {pre post : List TestCaseRow} {r : TestCaseRow}
    (hnd : ((pre ++ r :: post).map (·.id)).Nodup) :
    ∀ x ∈ pre, x.id ≠ r.id := by
  intro x hx heq
  rw [List.map_append, List.map_cons] at hnd
  have hdisj := List.disjoint_of_nodup_append hnd
  exact hdisj (List.mem_map_of_mem _ hx) (heq ▸ List.mem_cons_self _ _)

theorem claim_some_locked_after (p w : String) (t : Nat) (tbl : List TestCaseRow)
    (r' : TestCaseRow) (hnd : (tbl.map (·.id)).Nodup)
    (h : (claim_test_case p w t tbl).1 = some r') :
    status_of (claim_test_case p w t tbl).2 r'.id = some "locked" := by
  rcases claim_some_spec p w t tbl r' h with ⟨pre, r, post, htbl, _, _, hr', h2⟩
  rw [h2, hr']
  have hne : ∀ x ∈ pre, x.id ≠ r.id := nodup_middle_ne (htbl ▸ hnd)
  rw [status_of_append_right pre _ _ (fun x hx => by simpa using hne x hx)]
  rw [status_of_cons_pos _ _ _ (by simp [lock_row])]
  rfl

theorem claim_some_not_locked_before (p w : String) (t : Nat)
    (tbl : List TestCaseRow) (r' : TestCaseRow) (hnd : (tbl.map (·.id)).Nodup)
    (h : (claim_test_case p w t tbl).1 = some r') :
    ¬(status_of tbl r'.id = some "locked") := by
  rcases claim_some_spec p w t tbl r' h with ⟨pre, r, post, htbl, _, hel, hr', _⟩
  have hne : ∀ x ∈ pre, x.id ≠ r.id := nodup_middle_ne (htbl ▸ hnd)
  rw [htbl, hr']
  rw [status_of_append_right pre _ _ (fun x hx => by simpa using hne x hx)]
  rw [status_of_cons_pos _ _ _ (by simp [lock_row])]
  intro hcontra
  injection hcontra with hcontra
  rcases eligible_status hel with hs | hs <;> rw [hs] at hcontra <;>
    exact absurd hcontra (by decide)

theorem locked_never_returned (cs : List (String × String × Nat)) :
    ∀ (tbl : List TestCaseRow) (i : Nat), (tbl.map (·.id)).Nodup →
    status_of tbl i = some "locked" →
    ∀ o ∈ (run_claims tbl cs).1, ∀ r', o = some r' → r'.id ≠ i := by
  induction cs with
  | nil =>
    intro tbl i _ _ o ho
    simp [run_claims] at ho
  | cons c cs ih =>
    rcases c with ⟨p, w, t⟩
    intro tbl i hnd hlock o ho r' hor'
    rw [run_claims] at ho
    rcases List.mem_cons.mp ho with ho | ho
    · subst ho
      intro heq
      have := claim_some_not_locked_before p w t tbl r' hnd hor'
      rw [heq] at this
      exact this hlock
    · have hnd2 : ((claim_test_case p w t tbl).2.map (·.id)).Nodup := by
        rw [claim_ids]; exact hnd
      exact ih (claim_test_case p w t tbl).2 i hnd2
        (claim_preserves_locked p w t tbl i hlock) o ho r' hor'

/-- C1: `claim_test_case` atomically selects one row with status in
{pending, retry} and matching provider, transitions it to `locked` stamping
`locked_at` and `worker_id` (`lock_row`), and returns the updated row; it
returns nothing exactly when no eligible row exists, leaving the table
unchanged.  Across any serialized schedule of claim attempts on a table with
distinct ids, no row is returned to two callers. -/
theorem c1_claim_exclusivity :
    (∀ (p w : String) (t : Nat) (tbl : List TestCaseRow) (r' : TestCaseRow),
      (claim_test_case p w t tbl).1 = some r' →
      ∃ pre r post, tbl = pre ++ r :: post ∧
        (∀ x ∈ pre, eligible p x = false) ∧
        eligible p r = true ∧ r' = lock_row w t r ∧
        (claim_test_case p w t tbl).2 = pre ++ lock_row w t r :: post) ∧
    (∀ (p w : String) (t : Nat) (tbl : List TestCaseRow),
      (claim_test_case p w t tbl).1 = none →
      (claim_test_case p w t tbl).2 = tbl ∧ ∀ r ∈ tbl, eligible p r = false) ∧
    (∀ (tbl : List TestCaseRow) (cs : List (String × String × Nat)),
      (tbl.map (·.id)).Nodup →
      List.Pairwise
        (fun o1 o2 => ∀ r1 r2, o1 = some r1 → o2 = some r2 → r1.id ≠ r2.id)
        (run_claims tbl cs).1) := by
  refine ⟨claim_some_spec, claim_none_spec, ?_⟩
  intro tbl cs
  induction cs generalizing tbl with
  | nil =>
    intro _
    simp [run_claims]
  | cons c cs ih =>
    rcases c with ⟨p, w, t⟩
    intro hnd
    rw [run_claims]
    have hnd2 : ((claim_test_case p w t tbl).2.map (·.id)).Nodup := by
      rw [claim_ids]; exact hnd
    refine List.Pairwise.cons ?_ (ih _ hnd2)
    intro o ho r1 r2 h1 h2
    have hlock := claim_some_locked_after p w t tbl r1 hnd h1
    have hne := locked_never_returned cs (claim_test_case p w t tbl).2 r1.id hnd2
      hlock o ho r2 h2
    exact fun heq => hne heq.symm

/-- Witness for C1: one pending row claimed, the empty table yielding
nothing, and two competing claims on one row never double-claiming. -/
theorem c1_claim_exclusivity_witness :
    (∃ pre r post, [pending_row] = pre ++ r :: post ∧
      (∀ x ∈ pre, eligible "claude" x = false) ∧
      eligible "claude" r = true ∧
      lock_row "w1" 5 pending_row = lock_row "w1" 5 r ∧
      (claim_test_case "claude" "w1" 5 [pending_row]).2 =
        pre ++ lock_row "w1" 5 r :: post) ∧
    ((claim_test_case "claude" "w1" 5 []).2 = [] ∧
      ∀ r ∈ ([] : List TestCaseRow), eligible "claude" r = false) ∧
    List.Pairwise
      (fun o1 o2 => ∀ r1 r2, o1 = some r1 → o2 = some r2 → r1.id ≠ r2.id)
      (run_claims [pending_row] [("claude", "w1", 5), ("claude", "w2", 6)]).1 :=
  ⟨c1_claim_exclusivity.1 "claude" "w1" 5 [pending_row]
      (lock_row "w1" 5 pending_row) (by decide),
   c1_claim_exclusivity.2.1 "claude" "w1" 5 [] rfl,
   c1_claim_exclusivity.2.2 [pending_row]
      [("claude", "w1", 5), ("claude", "w2", 6)] (by decide)⟩

theorem run_questions_ops_mem (env : RunEnv) (tcId : Nat) (sys : String) :
    ∀ (qs : List Question) (seq : Nat) (msgs : List Msg)
      (resp : List (Nat × Int)) (ops : List DbOp) (calls : List (List Msg))
      (op : DbOp),
      op ∈ (run_questions env tcId sys qs seq msgs resp ops calls).ops →
      op ∈ ops ∨ ∃ arg, op = DbOp.insert_response arg := by
  intro qs
  induction qs with
  | nil =>
    intro seq msgs resp ops calls op h
    simp only [run_questions] at h
    exact Or.inl h
  | cons q rest ih =>
    intro seq msgs resp ops calls op h
    simp only [run_questions] at h
    split at h
    · split at h
      · dsimp only at h
        exact Or.inl h
      · rcases ih _ _ _ _ _ op h with hmem | hins
        · rcases List.mem_append.mp hmem with h' | h'
          · exact Or.inl h'
          · exact Or.inr ⟨_, List.mem_singleton.mp h'⟩
        · exact Or.inr hins
    · split at h
      · dsimp only at h
        exact Or.inl h
      · rcases ih _ _ _ _ _ op h with hmem | hins
        · rcases List.mem_append.mp hmem with h' | h'
          · exact Or.inl h'
          · exact Or.inr ⟨_, List.mem_singleton.mp h'⟩
        · exact Or.inr hins

theorem run_test_case_shape (env : RunEnv) (tc : TestCaseInput) :
    (∃ e, run_test_case env tc =
        (false, [DbOp.update_status tc.id "error" (some e)])) ∨
    (∃ preOps,
      (∀ op ∈ preOps, op = DbOp.update_status tc.id "running" none ∨
        ∃ arg, op = DbOp.insert_response arg) ∧
      ((∃ e, run_test_case env tc =
          (false, preOps ++ [DbOp.update_status tc.id "error" (some e)])) ∨
       (∃ resArg, run_test_case env tc =
          (true, preOps ++ [DbOp.insert_result resArg,
                            DbOp.update_status tc.id "complete" none])))) := by
  unfold run_test_case
  by_cases hkey :
      ((env.api_keys.find? (fun p => p.1 == tc.provider)).map (·.2)).getD "" = ""
  · rw [if_pos hkey]
    exact Or.inl ⟨_, rfl⟩
  · rw [if_neg hkey]
    cases hprov : env.providers.contains tc.provider with
    | false =>
      simp only [hprov, Bool.not_false, if_true]
      exact Or.inl ⟨_, rfl⟩
    | true =>
      simp only [hprov, Bool.not_true, Bool.false_eq_true, if_false]
      cases hinst : (env.instruments.find? (fun p => p.1 == tc.instrument)).map (·.2) with
      | none => exact Or.inl ⟨_, rfl⟩
      | some instrument =>
        cases hsys : (env.input_systems.find? (fun p => p.1 == tc.input_system)).map (·.2) with
        | none => exact Or.inl ⟨_, rfl⟩
        | some input_system =>
          dsimp only
          have hpre : ∀ op ∈ (run_questions env tc.id
              (input_system ⟨tc.o_score, tc.c_score, tc.e_score, tc.a_score, tc.n_score, none⟩ ++
                "\n\nBased on these personality traits, " ++ instrument.scale_instructions)
              instrument.questions 1 [] []
              [DbOp.update_status tc.id "running" none] []).ops,
              op = DbOp.update_status tc.id "running" none ∨
                ∃ arg, op = DbOp.insert_response arg := by
            intro op hop
            rcases run_questions_ops_mem env tc.id _ instrument.questions 1 [] [] _ [] op hop
              with hmem | hins
            · exact Or.inl (List.mem_singleton.mp hmem)
            · exact Or.inr hins
          refine Or.inr ⟨_, hpre, ?_⟩
          cases herr : (run_questions env tc.id
              (input_system ⟨tc.o_score, tc.c_score, tc.e_score, tc.a_score, tc.n_score, none⟩ ++
                "\n\nBased on these personality traits, " ++ instrument.scale_instructions)
              instrument.questions 1 [] []
              [DbOp.update_status tc.id "running" none] []).err with
          | some e => exact Or.inl ⟨e, rfl⟩
          | none => exact Or.inr ⟨_, rfl⟩

/-- C3 counterexample: a test case whose provider key is configured but
absent from the provider registry is routed by the runner to status `error`
via `update_test_case_status`, not to `failed`: the runner never invokes
`fail_test_case`. -/
theorem c3_counterexample :
    run_test_case (mock_env "nope" false [] "4") (mock_tc "nope") =
      (false, [DbOp.update_status 1 "error" (some "Unknown provider: nope")]) ∧
    status_of (apply_ops ⟨[sample_row], [], []⟩
        (run_test_case (mock_env "nope" false [] "4") (mock_tc "nope")).2).test_cases 1 =
      some "error" ∧
    ¬("error" = "failed") := by
  refine ⟨by decide, by decide, by decide⟩

/-- C3 amended: any exception during a test-case run aborts the remaining
questions and ends the statement sequence with a single status update to
`error` carrying the message; before it only the `running` update and
response inserts occur (no result insert, no `failed` or `retry`
transition — the runner does not call `fail_test_case`).  Unknown-provider
configuration errors produce the `error` update immediately. -/
theorem c3_error_routing (env : RunEnv) (tc : TestCaseInput) :
    ((run_test_case env tc).1 = false →
      ∃ pre e, (run_test_case env tc).2 =
          pre ++ [DbOp.update_status tc.id "error" (some e)] ∧
        ∀ op ∈ pre, op = DbOp.update_status tc.id "running" none ∨
          ∃ arg, op = DbOp.insert_response arg) ∧
    (((env.api_keys.find? (fun p => p.1 == tc.provider)).map (·.2)).getD "" ≠ "" →
      env.providers.contains tc.provider = false →
      run_test_case env tc = (false,
        [DbOp.update_status tc.id "error"
          (some ("Unknown provider: " ++ tc.provider))])) := by
  constructor
  · intro hfail
    rcases run_test_case_shape env tc with ⟨e, hrun⟩ | ⟨preOps, hall, hcase⟩
    · refine ⟨[], e, ?_, by simp⟩
      rw [hrun]
      rfl
    · rcases hcase with ⟨e, hrun⟩ | ⟨resArg, hrun⟩
      · refine ⟨preOps, e, ?_, hall⟩
        rw [hrun]
      · rw [hrun] at hfail
        exact absurd hfail (by simp)
  · intro hkey hprov
    unfold run_test_case
    rw [if_neg hkey]
    simp only [hprov, Bool.not_false, if_true]

/-- Witness for C3 amended at the unknown-provider environment. -/
theorem c3_error_routing_witness :
    (∃ pre e, (run_test_case (mock_env "nope" false [] "4") (mock_tc "nope")).2 =
        pre ++ [DbOp.update_status (mock_tc "nope").id "error" (some e)] ∧
      ∀ op ∈ pre, op = DbOp.update_status (mock_tc "nope").id "running" none ∨
        ∃ arg, op = DbOp.insert_response arg) ∧
    run_test_case (mock_env "nope" false [] "4") (mock_tc "nope") = (false,
      [DbOp.update_status (mock_tc "nope").id "error"
        (some ("Unknown provider: " ++ (mock_tc "nope").provider))]) :=
  ⟨(c3_error_routing (mock_env "nope" false [] "4") (mock_tc "nope")).1 (by decide),
   (c3_error_routing (mock_env "nope" false [] "4") (mock_tc "nope")).2
     (by decide) (by decide)⟩

/-- C4 counterexample: the runner completes a job through two separate
autocommitted statements (`insert_result`, then the status update); applying
only the first three of its four statements — a crash point — leaves a state
with the Result row persisted while the status is still `running`, so the
two effects are not atomic as claimed. -/
theorem c4_counterexample :
    (apply_ops ⟨[sample_row], [], []⟩
        ((run_test_case (mock_env "claude" false [⟨1, "q1", "primary", false⟩] "4")
          (mock_tc "claude")).2.take 3)).results.length = 1 ∧
    status_of (apply_ops ⟨[sample_row], [], []⟩
        ((run_test_case (mock_env "claude" false [⟨1, "q1", "primary", false⟩] "4")
          (mock_tc "claude")).2.take 3)).test_cases 1 = some "running" ∧
    ¬("running" = "complete") := by
  refine ⟨by decide, by decide, by decide⟩

/-- C4 amended: within one successful run the Result insert happens exactly
once, immediately before the completion status update, but as a separate
autocommitted statement rather than in one transaction with it.  The
`complete_test_case` helper, which the runner does not call, is likewise two
separate commits — `Database.execute` commits after every statement despite
the `db.transaction()` wrapper — so applying it in full inserts the Result
exactly once, while a crash after its first commit leaves the status flipped
to `complete` with no Result row: neither path makes the two effects
both-or-neither. -/
theorem c4_completion (env : RunEnv) (tc : TestCaseInput) (db : Db)
    (id now : Nat) (total : ℚ) (fs : List (String × ℚ)) (qa qt dm : Nat) :
    ((run_test_case env tc).1 = true →
      ∃ pre resArg, (run_test_case env tc).2 =
          pre ++ [DbOp.insert_result resArg,
                  DbOp.update_status tc.id "complete" none] ∧
        ∀ op ∈ pre, op_is_insert_result op = false) ∧
    ((apply_commits db (complete_test_case id now total fs qa qt dm)).results =
        db.results ++ [⟨id, total, fs, qa, qt, some dm⟩] ∧
      (apply_commits db
          ((complete_test_case id now total fs qa qt dm).take 1)).results =
        db.results ∧
      ∀ r ∈ (apply_commits db
          ((complete_test_case id now total fs qa qt dm).take 1)).test_cases,
        r.id = id → r.status = "complete") := by
  constructor
  · intro hok
    rcases run_test_case_shape env tc with ⟨e, hrun⟩ | ⟨preOps, hall, hcase⟩
    · rw [hrun] at hok
      exact absurd hok (by simp)
    · rcases hcase with ⟨e, hrun⟩ | ⟨resArg, hrun⟩
      · rw [hrun] at hok
        exact absurd hok (by simp)
      · refine ⟨preOps, resArg, ?_, ?_⟩
        · rw [hrun]
        · intro op hop
          rcases hall op hop with h | ⟨arg, harg⟩
          · rw [h]; rfl
          · rw [harg]; rfl
  · refine ⟨rfl, rfl, ?_⟩
    intro r hr hid
    simp only [apply_commits, complete_test_case, List.take,
      List.foldl_cons, List.foldl_nil, complete_status_commit,
      List.mem_map] at hr
    rcases hr with ⟨x, _, hx⟩
    by_cases hxid : x.id = id
    · rw [← hx, if_pos hxid]
    · rw [← hx, if_neg hxid] at hid ⊢
      exact absurd hid hxid

/-- Witness for C4 amended at a concrete one-question run and a concrete
database. -/
theorem c4_completion_witness :
    (∃ pre resArg,
      (run_test_case (mock_env "claude" false [⟨1, "q1", "primary", false⟩] "4")
          (mock_tc "claude")).2 =
        pre ++ [DbOp.insert_result resArg,
                DbOp.update_status (mock_tc "claude").id "complete" none] ∧
      ∀ op ∈ pre, op_is_insert_result op = false) ∧
    ((apply_commits ⟨[sample_row], [], []⟩
        (complete_test_case 1 9 0 [] 0 26 100)).results =
        (⟨[sample_row], [], []⟩ : Db).results ++ [⟨1, 0, [], 0, 26, some 100⟩] ∧
      (apply_commits ⟨[sample_row], [], []⟩
          ((complete_test_case 1 9 0 [] 0 26 100).take 1)).results =
        (⟨[sample_row], [], []⟩ : Db).results ∧
      ∀ r ∈ (apply_commits ⟨[sample_row], [], []⟩
          ((complete_test_case 1 9 0 [] 0 26 100).take 1)).test_cases,
        r.id = 1 → r.status = "complete") :=
  ⟨(c4_completion (mock_env "claude" false [⟨1, "q1", "primary", false⟩] "4")
      (mock_tc "claude") ⟨[sample_row], [], []⟩ 1 9 0 [] 0 26 100).1 (by decide),
   (c4_completion (mock_env "claude" false [⟨1, "q1", "primary", false⟩] "4")
      (mock_tc "claude") ⟨[sample_row], [], []⟩ 1 9 0 [] 0 26 100).2⟩

theorem run_questions_long (env : RunEnv) (tcId : Nat) (sys : String)
    (resOf : List Msg → CompletionResult)
    (hlong : env.longitudinal = true)
    (hc : ∀ ms, env.complete_with_messages ms sys = Except.ok (resOf ms)) :
    ∀ (qs : List Question) (seq : Nat) (msgs : List Msg)
      (resp : List (Nat × Int)) (ops : List DbOp) (calls : List (List Msg)),
    (run_questions env tcId sys qs seq msgs resp ops calls).err = none ∧
    (run_questions env tcId sys qs seq msgs resp ops calls).ops.filterMap
        op_seq_position =
      ops.filterMap op_seq_position ++ List.range' seq qs.length ∧
    (run_questions env tcId sys qs seq msgs resp ops calls).ops.filterMap
        op_question_number =
      ops.filterMap op_question_number ++ qs.map (·.number) ∧
    (run_questions env tcId sys qs seq msgs resp ops calls).calls =
      calls ++ spec_longitudinal_calls (fun ms => (resOf ms).text) msgs
        (qs.map question_user_msg) := by
  intro qs
  induction qs with
  | nil =>
    intro seq msgs resp ops calls
    refine ⟨rfl, ?_, ?_, ?_⟩ <;> simp [run_questions, spec_longitudinal_calls]
  | cons q rest ih =>
    intro seq msgs resp ops calls
    simp only [run_questions, hlong, if_true]
    rw [hc]
    dsimp only
    rcases ih (seq + 1)
        (msgs ++ [⟨"user", question_user_msg q⟩] ++
          [⟨"assistant", (resOf (msgs ++ [⟨"user", question_user_msg q⟩])).text⟩])
        (dict_insert resp q.number
          (parse_digit (resOf (msgs ++ [⟨"user", question_user_msg q⟩])).text))
        (ops ++ [DbOp.insert_response
          { test_case_id := tcId, question_number := q.number,
            question_text := q.text, factor := q.factor,
            is_reversed := q.is_reversed,
            raw_response := (resOf (msgs ++ [⟨"user", question_user_msg q⟩])).text,
            parsed_score :=
              parse_digit (resOf (msgs ++ [⟨"user", question_user_msg q⟩])).text,
            response_time_ms :=
              (resOf (msgs ++ [⟨"user", question_user_msg q⟩])).latency_ms,
            sequence_position := some seq,
            context_tokens :=
              (resOf (msgs ++ [⟨"user", question_user_msg q⟩])).prompt_tokens }])
        (calls ++ [msgs ++ [⟨"user", question_user_msg q⟩]])
      with ⟨herr, hseq, hnum, hcalls⟩
    refine ⟨herr, ?_, ?_, ?_⟩
    · rw [hseq, List.filterMap_append]
      simp only [List.filterMap, op_seq_position]
      rw [List.length_cons, List.range'_succ]
      simp
    · rw [hnum, List.filterMap_append]
      simp only [List.filterMap, op_question_number]
      simp [List.map_cons]
    · rw [hcalls, List.map_cons, spec_longitudinal_calls]
      simp [List.append_assoc]

/-- C6: in a longitudinal run over questions Q1..Qn with a deterministic
provider, the loop completes, the persisted Response statements carry
`sequence_position` exactly 1..n in question order, their question numbers
follow the declared question order, and the message list sent with each
request equals the prior question/answer pairs in order followed by the
current user message, the assistant reply being appended before the next
iteration (`spec_longitudinal_calls` renders that spec sentence). -/
theorem c6_longitudinal_ordering (env : RunEnv) (tcId : Nat) (sys : String)
    (qs : List Question) (resOf : List Msg → CompletionResult)
    (hlong : env.longitudinal = true)
    (hc : ∀ ms, env.complete_with_messages ms sys = Except.ok (resOf ms)) :
    (run_questions env tcId sys qs 1 [] [] [] []).err = none ∧
    (run_questions env tcId sys qs 1 [] [] [] []).ops.filterMap op_seq_position =
      List.range' 1 qs.length ∧
    (run_questions env tcId sys qs 1 [] [] [] []).ops.filterMap op_question_number =
      qs.map (·.number) ∧
    (run_questions env tcId sys qs 1 [] [] [] []).calls =
      spec_longitudinal_calls (fun ms => (resOf ms).text) []
        (qs.map question_user_msg) := by
  rcases run_questions_long env tcId sys resOf hlong hc qs 1 [] [] [] []
    with ⟨herr, hseq, hnum, hcalls⟩
  refine ⟨herr, ?_, ?_, ?_⟩
  · rw [hseq]; rfl
  · rw [hnum]; rfl
  · rw [hcalls]; rfl

/-- Witness for C6 at a concrete two-question longitudinal run with constant
provider reply "4". -/
theorem c6_longitudinal_ordering_witness :
    (run_questions
        (mock_env "claude" true
          [⟨1, "q1", "primary", false⟩, ⟨2, "q2", "secondary", false⟩] "4")
        1 "sys"
        [⟨1, "q1", "primary", false⟩, ⟨2, "q2", "secondary", false⟩]
        1 [] [] [] []).err = none ∧
    (run_questions
        (mock_env "claude" true
          [⟨1, "q1", "primary", false⟩, ⟨2, "q2", "secondary", false⟩] "4")
        1 "sys"
        [⟨1, "q1", "primary", false⟩, ⟨2, "q2", "secondary", false⟩]
        1 [] [] [] []).ops.filterMap op_seq_position =
      List.range' 1
        ([⟨1, "q1", "primary", false⟩, ⟨2, "q2", "secondary", false⟩] :
          List Question).length ∧
    (run_questions
        (mock_env "claude" true
          [⟨1, "q1", "primary", false⟩, ⟨2, "q2", "secondary", false⟩] "4")
        1 "sys"
        [⟨1, "q1", "primary", false⟩, ⟨2, "q2", "secondary", false⟩]
        1 [] [] [] []).ops.filterMap op_question_number =
      ([⟨1, "q1", "primary", false⟩, ⟨2, "q2", "secondary", false⟩] :
        List Question).map (·.number) ∧
    (run_questions
        (mock_env "claude" true
          [⟨1, "q1", "primary", false⟩, ⟨2, "q2", "secondary", false⟩] "4")
        1 "sys"
        [⟨1, "q1", "primary", false⟩, ⟨2, "q2", "secondary", false⟩]
        1 [] [] [] []).calls =
      spec_longitudinal_calls
        (fun ms => ((fun (_ : List Msg) =>
          (⟨"4", none, none⟩ : CompletionResult)) ms).text) []
        (([⟨1, "q1", "primary", false⟩, ⟨2, "q2", "secondary", false⟩] :
          List Question).map question_user_msg) :=
  c6_longitudinal_ordering
    (mock_env "claude" true
      [⟨1, "q1", "primary", false⟩, ⟨2, "q2", "secondary", false⟩] "4")
    1 "sys"
    [⟨1, "q1", "primary", false⟩, ⟨2, "q2", "secondary", false⟩]
    (fun _ => ⟨"4", none, none⟩) rfl (fun _ => rfl)

end Bladerunner
